import Mathlib

/-!
Verification of the daily-drilling-report normalization pipeline.

Shallow embedding of the per-unit parsers and schema mappers of the
repository (directories `Region 1`, `Region 2`, `Region 5`, `Zone 7`,
`Zone 8`, `Zone 9`, `Zone 10`, each with one `app.py`).  Python strings
are modelled as `List Char`; pandas timestamps at day resolution are
modelled as integers (day indices), so `pd.Timedelta(days=1)` is `1`;
Python `float` values are modelled as exact rationals (no claim below
depends on IEEE rounding).  pandas column operations are modelled
row-wise; zero-row frame edge cases of pandas itself are outside the
model.  `pd.DataFrame.sort_values` is modelled as a stable sort by the
key; the exact permutation produced by the library's default
`kind='quicksort'` is *not* part of this model and no ordering claim is
settled from it.
-/

deriving instance DecidableEq for Except

namespace DDR

/-- Python strings as lists of characters. -/
abbrev Txt := List Char

/-- Python `str.isspace` characters relevant to `strip()` (ASCII fragment). -/
def pyIsSpace (c : Char) : Bool :=
  c = ' ' || c = '\t' || c = '\n' || c = '\r' || c = '\x0b' || c = '\x0c'

/-- Python `str.lstrip()` (whitespace). -/
def lstripWs (s : Txt) : Txt := s.dropWhile pyIsSpace

/-- Python `str.rstrip()` (whitespace). -/
def rstripWs (s : Txt) : Txt := (s.reverse.dropWhile pyIsSpace).reverse

/-- Python `str.strip()` (whitespace). -/
def stripWs (s : Txt) : Txt := rstripWs (lstripWs s)

/-- Python `s.rstrip('.')`. -/
def rstripDots (s : Txt) : Txt := (s.reverse.dropWhile (· = '.')).reverse

theorem length_dropWhileLe (p : α → Bool) (l : List α) :
    (l.dropWhile p).length ≤ l.length :=
  (List.dropWhile_suffix p).length_le

/-- ASCII `str.lower` on one character. -/
def pyLowerC (c : Char) : Char :=
  if 'A' ≤ c ∧ c ≤ 'Z' then Char.ofNat (c.toNat + 32) else c

/-- ASCII `str.upper` on one character. -/
def pyUpperC (c : Char) : Char :=
  if 'a' ≤ c ∧ c ≤ 'z' then Char.ofNat (c.toNat - 32) else c

/-- Python `str.lower()`. -/
def pyLower (s : Txt) : Txt := s.map pyLowerC

/-- Python `str.upper()`. -/
def pyUpper (s : Txt) : Txt := s.map pyUpperC

/-- Split on a separator character (Python `str.split(c)` semantics:
the result always has one more part than there are separators). -/
def splitOnChar (c : Char) : Txt → List Txt
  | [] => [[]]
  | x :: xs =>
    match splitOnChar c xs with
    | [] => [[]]
    | h :: t => if x = c then [] :: h :: t else (x :: h) :: t

/-- Python `str.splitlines()` restricted to `'\n'` line boundaries:
like `split('\n')` but without a final empty piece for a trailing
newline, and `[]` for the empty string. -/
def pySplitlines (s : Txt) : List Txt :=
  if s = [] then []
  else
    match (splitOnChar '\n' s).reverse with
    | [] => []
    | h :: t => if h = [] then t.reverse else (h :: t).reverse

/-- Join pieces with `'\n'` (Python `'\n'.join`). -/
def joinNl : List Txt → Txt
  | [] => []
  | [l] => l
  | l :: ls => l ++ '\n' :: joinNl ls

/-- Join pieces with `' '` (Python `' '.join`). -/
def joinSpace : List Txt → Txt
  | [] => []
  | [l] => l
  | l :: ls => l ++ ' ' :: joinSpace ls

/-- Python `s.split(c, 1)`: `none` when the separator is absent
(indexing `[1]` would then raise), otherwise the two parts. -/
def splitAtFirst (c : Char) : Txt → Option (Txt × Txt)
  | [] => none
  | x :: xs =>
    if x = c then some ([], xs)
    else (splitAtFirst c xs).map (fun p => (x :: p.1, p.2))

/-- First maximal run of characters satisfying `p`
(the `re.search(r"([class]+)", s)` idiom). -/
def firstRun (p : Char → Bool) : Txt → Option Txt
  | [] => none
  | x :: xs => if p x then some (x :: xs.takeWhile p) else firstRun p xs

/-- Value of a digit string. -/
def natOfDigits (s : Txt) : ℕ := s.foldl (fun n c => 10 * n + (c.toNat - 48)) 0

/-- Digit-or-dot character class `[\d.]`. -/
def isDigitOrDot (c : Char) : Bool := c.isDigit || c = '.'

/-- Python `float(s)` on a string containing only digits and dots:
defined iff there is at most one `'.'` and at least one digit, with the
exact rational value (a multi-dot string such as `"1.2.3"` raises
`ValueError`, modelled as `none`). -/
def pyFloatOfStripped (s : Txt) : Option ℚ :=
  match splitOnChar '.' s with
  | [a] => if a ≠ [] ∧ a.all Char.isDigit then some (natOfDigits a : ℚ) else none
  | [a, b] =>
    if (a ++ b) ≠ [] ∧ (a ++ b).all Char.isDigit then
      some ((natOfDigits a : ℚ) + (natOfDigits b : ℚ) / (10 : ℚ) ^ b.length)
    else none
  | _ => none

/-- Python `int(s)` on a string: optional sign then digits, `none` on
anything else (`ValueError`). -/
def pyIntOfTxt (s : Txt) : Option ℤ :=
  let t := stripWs s
  match t with
  | '-' :: ds => if ds ≠ [] ∧ ds.all Char.isDigit then some (-(natOfDigits ds : ℤ)) else none
  | '+' :: ds => if ds ≠ [] ∧ ds.all Char.isDigit then some (natOfDigits ds : ℤ) else none
  | ds => if ds ≠ [] ∧ ds.all Char.isDigit then some (natOfDigits ds : ℤ) else none

/-- Python `int(q)` for a float value: truncation toward zero. -/
def pyTruncInt (q : ℚ) : ℤ := if 0 ≤ q then ⌊q⌋ else -⌊-q⌋

/-- Least index at which `pat` occurs in `s` starting from offset `i`
(Python `str.find` without the `-1` encoding). -/
def findSubFrom (pat : Txt) : Txt → ℕ → Option ℕ
  | [], i => if pat = [] then some i else none
  | s@(_ :: xs), i => if pat.isPrefixOf s then some i else findSubFrom pat xs (i + 1)

/-- Python `s.find(pat)` as an `Option`. -/
def findSub (s pat : Txt) : Option ℕ := findSubFrom pat s 0

/-- Substring containment (`pat in s`). -/
def containsSub (s pat : Txt) : Bool := (findSub s pat).isSome

/-- Remove every occurrence of character `c` (Python `str.replace(c, "")`). -/
def removeChar (c : Char) (s : Txt) : Txt := s.filter (· ≠ c)

/-- Worker of `replaceSubAll`, structurally recursive on a fuel bound
(one unit of fuel per consumed character; the fuel-exhausted case is
unreachable for fuel ≥ the text length). -/
def replaceSubAllF (pat rep : Txt) : ℕ → Txt → Txt
  | _, [] => []
  | 0, s => s
  | f + 1, x :: xs =>
    if pat.isPrefixOf (x :: xs) ∧ pat ≠ [] then
      rep ++ replaceSubAllF pat rep f ((x :: xs).drop pat.length)
    else
      x :: replaceSubAllF pat rep f xs

/-- Replace non-overlapping occurrences of `pat` by `rep`, left to right
(Python `str.replace(pat, rep)` for non-empty `pat`). -/
def replaceSubAll (pat rep s : Txt) : Txt := replaceSubAllF pat rep s.length s

/-! ### Canonical output schema (§3 of the spec) and the per-unit
column orders, copied verbatim from each unit's `app.py`. -/

/-- The 19-column canonical schema of the spec (§3, `CanonicalRow`). -/
def canonicalColumns : List String :=
  ["Flag", "Region", "Zone", "APH", "Rig Name", "Well Name", "Well Name [2]",
   "Well Type", "Location", "Spud Date", "Release Date", "Status",
   "Status Code [1]", "Status Code [2]", "Summary Report", "Current Status",
   "Next Plan", "Report Date", "Operation Date"]

/-- `column_order` of `src/Zone 7/app.py` (`transform_raw_to_final`, lines 337-342). -/
def z7ColumnOrder : List String :=
  ["Flag", "Region", "Zone", "APH", "Rig Name", "Well Name", "Well Name_2",
   "Well Type", "Location", "Spud Date", "Release Date", "Status",
   "Status Code [1]", "Status Code [2]", "Summary", "Current Status",
   "Next Plan", "Report Date", "Operation Date"]

/-- `cols_order` of `src/Zone 8/app.py` (`transform_raw_to_final`, lines 250-255). -/
def z8ColsOrder : List String :=
  ["Flag", "Region", "Zone", "APH", "Rig Name", "Well Name", "Well Name [2]",
   "Well Type", "Location", "Spud Date", "Release Date", "Status",
   "Status Code [1]", "Status Code [2]", "Summary Report", "Current Status",
   "Next Plan", "Report Date", "Operation Date"]

/-- `cols_order` of `src/Zone 9/app.py` (`transform_raw_to_final`, lines 299-304). -/
def z9ColsOrder : List String :=
  ["Flag", "Region", "Zone", "APH", "Rig Name", "Well Name", "Well Name [2]",
   "Well Type", "Location", "Spud Date", "Release Date", "Status",
   "Status Code [1]", "Status Code [2]", "Summary Report", "Current Status",
   "Next Plan", "Report Date", "Operation Date"]

/-- `cols_order` of `src/Zone 10/app.py` (`transform_raw_to_final`, lines 436-441). -/
def z10ColsOrder : List String :=
  ["Flag", "Region", "Zone", "APH", "Rig Name", "Well Name", "Well Name [2]",
   "Well Type", "Location", "Spud Date", "Release Date", "Status",
   "Status Code [1]", "Status Code [2]", "Summary Report", "Current Status",
   "Next Plan", "Report Date", "Operation Date"]

/-- `reference_columns` of `src/Region 1/app.py` (`convert_daily_report`, lines 190-210). -/
def r1ReferenceColumns : List String :=
  ["Flag", "Region", "Zone", "APH", "Rig Name", "Well Name", "Well Name [2]",
   "Well Type", "Location", "Spud Date", "Release Date", "Status",
   "Status Code [1]", "Status Code [2]", "Summary Report", "Current Status",
   "Next Plan", "Report Date", "Operation Date"]

/-- `COLUMN_ORDER` of `src/Region 2/app.py` (lines 24-29). -/
def r2ColumnOrder : List String :=
  ["Flag", "Region", "Zone", "APH", "Rig Name", "Well Name_1", "Well Name_2",
   "Well Type", "Location", "Spud Date", "Release Date", "Status",
   "Status Code [1]", "Status Code [2]", "Summary Report", "Current Status",
   "Next Plan", "Report Date", "Operation Date"]

/-- `column_order` of `src/Region 5/app.py` (`transform_raw_to_final`, lines 305-310). -/
def r5ColumnOrder : List String :=
  ["Flag", "Region", "Zone", "APH", "Rig Name", "Well Name", "Well Name_2",
   "Well Type", "Location", "Spud Date", "Release Date", "Status",
   "Status Code [1]", "Status Code [2]", "Current Operation", "Current Status",
   "24 hrs look ahead", "Report Date", "Operation Date"]

/-! ### Cells and rows of the final output table. -/

/-- One cell of an output table: a string, an integer, a rational
number, a date (day index) or a pandas null (`NaN`/`None`/`NaT`). -/
inductive Cell
  | str (s : Txt)
  | int (n : ℤ)
  | rat (q : ℚ)
  | date (d : ℤ)
  | null
deriving DecidableEq

/-- A string value or null. -/
def optCell : Option Txt → Cell
  | some t => .str t
  | none => .null

/-- One row of a unit's final output table: 19 slots, one per column of
the unit's column order (slot names follow the canonical schema; units
with variant column *names* still produce these same 19 slots). -/
structure Row where
  flag : Cell
  region : Cell
  zone : Cell
  aph : Cell
  rigName : Cell
  wellName : Cell
  wellName2 : Cell
  wellType : Cell
  location : Cell
  spudDate : Cell
  releaseDate : Cell
  status : Cell
  statusCode1 : Cell
  statusCode2 : Cell
  summaryReport : Cell
  currentStatus : Cell
  nextPlan : Cell
  reportDate : Cell
  operationDate : Cell
deriving DecidableEq

/-- The cells of a row in export order. -/
def rowCells (r : Row) : List Cell :=
  [r.flag, r.region, r.zone, r.aph, r.rigName, r.wellName, r.wellName2,
   r.wellType, r.location, r.spudDate, r.releaseDate, r.status,
   r.statusCode1, r.statusCode2, r.summaryReport, r.currentStatus,
   r.nextPlan, r.reportDate, r.operationDate]

/-! ### Stable sorting (model of the Table Assembler's `sort_values`). -/

/-- Insert into a sorted list, before the first element that is
not strictly smaller (stable). -/
def insSortedBy (le : α → α → Bool) (a : α) : List α → List α
  | [] => [a]
  | b :: bs => if le a b then a :: b :: bs else b :: insSortedBy le a bs

/-- Stable sort by a boolean `le`. -/
def sortByLe (le : α → α → Bool) (l : List α) : List α :=
  l.foldr (insSortedBy le) []

theorem mem_insSortedBy (le : α → α → Bool) (a x : α) (l : List α) :
    x ∈ insSortedBy le a l ↔ x = a ∨ x ∈ l := by
  induction l with
  | nil => simp [insSortedBy]
  | cons b bs ih =>
    simp only [insSortedBy]
    by_cases h : le a b = true
    · simp [h]
    · simp only [if_neg h, List.mem_cons, ih]
      tauto

theorem mem_sortByLe (le : α → α → Bool) (x : α) (l : List α) :
    x ∈ sortByLe le l ↔ x ∈ l := by
  induction l with
  | nil => simp [sortByLe]
  | cons b bs ih =>
    simp only [sortByLe, List.foldr_cons] at *
    rw [mem_insSortedBy, ih, List.mem_cons]

/-- Lexicographic order on character lists (via code points). -/
def txtLe : Txt → Txt → Bool
  | [], _ => true
  | _ :: _, [] => false
  | a :: as, b :: bs => if a = b then txtLe as bs else decide (a < b)

/-- Sort key for one cell: nulls after strings (pandas `na_position='last'`),
other cell kinds irrelevant for the sorted columns. -/
def cellKey (c : Cell) : Bool × Txt :=
  match c with
  | .str t => (false, t)
  | _ => (true, [])

/-- Compare two key lists lexicographically. -/
def keysLe : List (Bool × Txt) → List (Bool × Txt) → Bool
  | [], _ => true
  | _ :: _, [] => true
  | a :: as, b :: bs =>
    if a = b then keysLe as bs
    else if a.1 = b.1 then txtLe a.2 b.2 else (!a.1)

/-- Case-insensitive single-key comparison on a string cell
(`sort_values(by='Rig Name', key=lambda s: s.str.lower())`). -/
def rigLowerLe (r1 r2 : Row) : Bool :=
  keysLe [cellKey (mapStrCell pyLower r1.rigName)] [cellKey (mapStrCell pyLower r2.rigName)]
where
  mapStrCell (f : Txt → Txt) : Cell → Cell
    | .str t => .str (f t)
    | c => c

/-- `astype(str)` rendering of a possibly-null cell: pandas renders
`NaN` as the string `"nan"`. -/
def astypeStr (v : Option Txt) : Txt :=
  match v with
  | some t => t
  | none => "nan".toList

/-! ### Free-text cleaners (spec §4.3, free-text cleaner). -/

/-- Decoration characters `-`, `:`, `=`. -/
def isDecor (c : Char) : Bool := c = '-' || c = ':' || c = '='

/-- The substitution `str.replace(r'^[\-\:=]+\s*', '', regex=True)` used
by `clean_text_fields` in `src/Zone 8/app.py` (line 151),
`src/Zone 9/app.py` (line 188) and `src/Zone 10/app.py` (line 285):
when the string starts with a decoration character, remove the maximal
leading run of decoration characters and the whitespace that follows it
(the anchored pattern is replaced at most once). -/
def stripLeadDecor (s : Txt) : Txt :=
  match s with
  | [] => []
  | c :: _ => if isDecor c then (s.dropWhile isDecor).dropWhile pyIsSpace else s

/-- Per-cell effect of `clean_text_fields` (`src/Zone 8/app.py` lines
141-152, identically `src/Zone 9/app.py` lines 178-189): `astype(str)`
renders a null as `"nan"`, the leading decoration run is stripped, and
a resulting literal `"nan"` becomes null again. -/
def cleanTextFieldCell (v : Option Txt) : Option Txt :=
  let s' := stripLeadDecor (astypeStr v)
  if s' = "nan".toList then none else some s'

namespace Z7

theorem length_lstripWs_le (s : Txt) : (lstripWs s).length ≤ s.length :=
  length_dropWhileLe _ _

theorem length_rstripWs_le (s : Txt) : (rstripWs s).length ≤ s.length := by
  have h := length_dropWhileLe pyIsSpace s.reverse
  simpa [rstripWs] using h

theorem length_stripWs_le (s : Txt) : (stripWs s).length ≤ s.length :=
  le_trans (length_rstripWs_le _) (length_lstripWs_le _)

/-- Worker of `cleanFirstLine`, structurally recursive on a fuel bound
(each loop iteration shortens the line, so fuel = length + 1 always
suffices and the fuel-exhausted case is unreachable). -/
def cleanFirstLineF : ℕ → Txt → Txt
  | 0, l => l
  | f + 1, l =>
    if (stripWs l).head? = some '-' then
      cleanFirstLineF f (stripWs ((stripWs l).drop 1))
    else l

/-- The `while lines[0].strip().startswith('-')` loop of
`clean_text_for_excel` in `src/Zone 7/app.py` (lines 29-30), acting on
the first line. -/
def cleanFirstLine (l : Txt) : Txt := cleanFirstLineF (l.length + 1) l

/-- `clean_text_for_excel` of `src/Zone 7/app.py` (lines 22-31): strip
the whole text, then repeatedly strip a leading `'-'` (plus whitespace)
from the first line only, and re-join with newlines.  (The copy in
`src/Zone 10/app.py`, lines 250-268, is the same code with an added
guard that is vacuous because the line list is never empty.) -/
def clean_text_for_excel (s : Txt) : Txt :=
  if s = [] then s
  else
    match splitOnChar '\n' (stripWs s) with
    | [] => []
    | h :: rest => joinNl (cleanFirstLine h :: rest)

end Z7

/-- Per-cell effect of Zone 10's `clean_text_fields`
(`src/Zone 10/app.py` lines 271-287): Excel-safe cleaning on non-null
cells, then the shared regex cleaning. -/
def z10CleanTextFieldCell (v : Option Txt) : Option Txt :=
  cleanTextFieldCell (v.map Z7.clean_text_for_excel)

/-! ### Numeric field parsing (spec §4.2). -/

/-- `val.split('(')[0].strip()`: the stripped part before the first
parenthesis (spec §4.2, cost-with-parenthetical fields). -/
def beforeParen (val : Txt) : Txt := stripWs (val.takeWhile (· ≠ '('))

namespace Z9

/-- AFE branch of `parse_txt_file` in `src/Zone 9/app.py` (lines
151-154): `num = re.sub(r'[^\d.]', '', val); num = num.rstrip('.');
float(num) if num else None`.  The `float` call is unguarded, so an
unparseable non-empty remainder raises `ValueError` (`.error ()`). -/
def parseAfeVal (val : Txt) : Except Unit (Option ℚ) :=
  let num := rstripDots (val.filter isDigitOrDot)
  if num = [] then .ok none
  else
    match pyFloatOfStripped num with
    | some q => .ok (some q)
    | none => .error ()

/-- Realisasi Biaya branch of `parse_txt_file` in `src/Zone 9/app.py`
(lines 158-162): the value before the first `'('` is parsed like AFE. -/
def parseRealisasiVal (val : Txt) : Except Unit (Option ℚ) :=
  let num := rstripDots ((beforeParen val).filter isDigitOrDot)
  if num = [] then .ok none
  else
    match pyFloatOfStripped num with
    | some q => .ok (some q)
    | none => .error ()

end Z9

namespace Z10

/-- AFE branch of `parse_txt_file` in `src/Zone 10/app.py` (lines
218-224): like Zone 9's, but the `float` call is wrapped in
`try/except ValueError`, so failure degrades to null. -/
def parseAfeVal (val : Txt) : Option ℚ :=
  let num := rstripDots (val.filter isDigitOrDot)
  if num = [] then none
  else
    match pyFloatOfStripped num with
    | some q => some q
    | none => none

/-- Realisasi Biaya branch of `parse_txt_file` in `src/Zone 10/app.py`
(lines 227-234). -/
def parseRealisasiVal (val : Txt) : Option ℚ :=
  let num := rstripDots ((beforeParen val).filter isDigitOrDot)
  if num = [] then none
  else
    match pyFloatOfStripped num with
    | some q => some q
    | none => none

end Z10

/-! ### Zone 8: parser (`src/Zone 8/app.py`). -/

namespace Z8

/-- Python exception kinds the Zone 8 parser can raise. -/
inductive PyErr
  | valueError
  | indexError
deriving DecidableEq

/-- One parsed record of `parse_txt_file` in `src/Zone 8/app.py` (the
dict created at lines 57-70).  `Kedalaman`/`Progress` merge Python's
int/float cases into one rational; `EMD` keeps the raw value
(`pd.to_datetime(..., errors="coerce")` is a library call that never
raises, and no claim depends on the coerced date). -/
structure Rec8 where
  no : ℤ
  namaSumur : Option Txt := none
  namaRig : Option Txt := none
  hariKe : Option ℤ := none
  kedalaman : Option ℚ := none
  progress : Option ℚ := none
  afe : Option ℤ := none
  realisasi : Option ℤ := none
  emdRaw : Option Txt := none
  summaryReport : Option Txt := none
  currentStatus : Option Txt := none
  nextPlan : Option Txt := none
deriving DecidableEq

/-- The truncation keyword (line 37). -/
def kw : Txt := "WELL INTERVENTION".toList

/-- Truncation at the keyword (lines 36-40): case-insensitive find,
then cut and right-strip. -/
def truncAtKw (t : Txt) : Txt :=
  match findSub (pyUpper t) kw with
  | some p => rstripWs (t.take p)
  | none => t

/-- Line preprocessing (line 43): split into lines, remove `*` and `_`. -/
def prepLines (t : Txt) : List Txt :=
  (pySplitlines t).map (fun l => l.filter (fun c => c != '*' && c != '_'))

/-- Boundary test `re.match(r"^(\d+)\.\s*", line)` (line 53): a leading
digit run followed by `'.'`; yields the number. -/
def matchNumDot (s : Txt) : Option ℤ :=
  let ds := s.takeWhile Char.isDigit
  if ds ≠ [] ∧ (s.drop ds.length).head? = some '.' then some (natOfDigits ds : ℤ)
  else none

/-- A blank line (falsy `line.strip()`). -/
def isBlankLine (l : Txt) : Bool := stripWs l = []

/-- Skip blank lines (the `while j < len(lines) and not
lines[j].strip()` loops at lines 107-126); yields the first non-blank
line and the remaining lines, if any. -/
def skipBlanks (ls : List Txt) : Option (Txt × List Txt) :=
  match ls.dropWhile isBlankLine with
  | [] => none
  | v :: vs => some (v, vs)

theorem skipBlanks_length {ls : List Txt} {v : Txt} {vs : List Txt}
    (h : skipBlanks ls = some (v, vs)) : vs.length < ls.length := by
  unfold skipBlanks at h
  rcases hd : ls.dropWhile isBlankLine with _ | ⟨w, ws⟩ <;> rw [hd] at h
  · cases h
  · cases h
    have hle := length_dropWhileLe isBlankLine ls
    rw [hd] at hle
    simp only [List.length_cons] at hle
    omega

/-- Worker of the main loop of `parse_txt_file` (lines 45-131): `cur`
is the record in progress, `acc` the finished records; exceptions
abort.  Structurally recursive on a fuel bound (one unit per consumed
line; the fuel-exhausted case is unreachable for fuel ≥ the number of
lines). -/
def parseLinesF : ℕ → List Txt → Option Rec8 → List Rec8 → Except PyErr (List Rec8)
  | _, [], cur, acc => .ok (acc ++ cur.toList)
  | 0, _ :: _, _, acc => .ok acc
  | f + 1, l :: ls, cur, acc =>
    let line := stripWs l
    match matchNumDot line with
    | some n => parseLinesF f ls (some { no := n }) (acc ++ cur.toList)
    | none =>
      match cur with
      | none => parseLinesF f ls none acc
      | some c =>
        if "Nama Sumur".toList.isPrefixOf line then
          match splitAtFirst ':' line with
          | none => .error .indexError
          | some (_, after) =>
            parseLinesF f ls (some { c with namaSumur := some (stripWs after) }) acc
        else if "Nama Rig".toList.isPrefixOf line then
          match splitAtFirst ':' line with
          | none => .error .indexError
          | some (_, after) =>
            parseLinesF f ls (some { c with namaRig := some (stripWs after) }) acc
        else if "Hari ke".toList.isPrefixOf line then
          match splitAtFirst ':' line with
          | none => .error .indexError
          | some (_, after) =>
            match pyIntOfTxt (stripWs after) with
            | none => .error .valueError
            | some k => parseLinesF f ls (some { c with hariKe := some k }) acc
        else if "Kedalaman".toList.isPrefixOf line then
          match firstRun isDigitOrDot line with
          | none => parseLinesF f ls (some c) acc
          | some v =>
            if '.' ∈ v then
              match pyFloatOfStripped v with
              | none => .error .valueError
              | some q => parseLinesF f ls (some { c with kedalaman := some q }) acc
            else parseLinesF f ls (some { c with kedalaman := some (natOfDigits v : ℚ) }) acc
        else if "Progres".toList.isPrefixOf line then
          match firstRun isDigitOrDot line with
          | none => parseLinesF f ls (some c) acc
          | some v =>
            if '.' ∈ v then
              match pyFloatOfStripped v with
              | none => .error .valueError
              | some q => parseLinesF f ls (some { c with progress := some q }) acc
            else parseLinesF f ls (some { c with progress := some (natOfDigits v : ℚ) }) acc
        else if "AFE".toList.isPrefixOf line then
          match splitAtFirst ':' line with
          | none => .error .indexError
          | some (_, after) =>
            match pyFloatOfStripped (after.filter isDigitOrDot) with
            | none => .error .valueError
            | some q => parseLinesF f ls (some { c with afe := some (pyTruncInt q) }) acc
        else if "realisasi biaya".toList.isPrefixOf (pyLower line) then
          match firstRun (fun ch => ch.isDigit || ch == ',' || ch == '.') line with
          | none => parseLinesF f ls (some c) acc
          | some v =>
            match pyFloatOfStripped (v.filter (· ≠ ',')) with
            | none => .error .valueError
            | some q => parseLinesF f ls (some { c with realisasi := some (pyTruncInt q) }) acc
        else if "EMD".toList.isPrefixOf line then
          match splitAtFirst ':' line with
          | none => .error .indexError
          | some (_, after) =>
            parseLinesF f ls (some { c with emdRaw := some (stripWs after) }) acc
        else if "summary report".toList.isPrefixOf (pyLower line) then
          match skipBlanks ls with
          | none => parseLinesF f ls (some c) acc
          | some (v, vs) =>
            parseLinesF f vs (some { c with summaryReport := some (stripWs v) }) acc
        else if "current status".toList.isPrefixOf (pyLower line) then
          match skipBlanks ls with
          | none => parseLinesF f ls (some c) acc
          | some (v, vs) =>
            parseLinesF f vs (some { c with currentStatus := some (stripWs v) }) acc
        else if "next plan".toList.isPrefixOf (pyLower line) then
          match skipBlanks ls with
          | none => parseLinesF f ls (some c) acc
          | some (v, vs) =>
            parseLinesF f vs (some { c with nextPlan := some (stripWs v) }) acc
        else parseLinesF f ls (some c) acc

/-- The main loop with the canonical fuel. -/
def parseLines (ls : List Txt) (cur : Option Rec8) (acc : List Rec8) :
    Except PyErr (List Rec8) :=
  parseLinesF ls.length ls cur acc

/-- Pure core of `parse_txt_file` (lines 23-138): truncate at the
keyword, preprocess lines, run the loop. -/
def parse_txt_file (t : Txt) : Except PyErr (List Rec8) :=
  parseLines (prepLines (truncAtKw t)) none []

/-- Failure outcomes of `transform_txt_to_raw` (file-system errors
aside): a propagated parse exception, or
`ValueError("No well data found in the report file")` (line 178). -/
inductive RawErr
  | parseFail (e : PyErr)
  | noWellData
deriving DecidableEq

/-- Pure core of `transform_txt_to_raw` (lines 155-184): parse, then
fail when the resulting frame is empty. -/
def transform_txt_to_raw (t : Txt) : Except RawErr (List Rec8) :=
  match parse_txt_file t with
  | .error e => .error (.parseFail e)
  | .ok rs => if rs = [] then .error .noWellData else .ok rs

/-- One row of the Zone 8 `export-raw` sheet after the column selection
of `transform_raw_to_final` (line 210); the Excel round-trip turns
empty cells into nulls. -/
structure RawRow8 where
  namaSumur : Option Txt
  namaRig : Option Txt
  summaryReport : Option Txt
  currentStatus : Option Txt
  nextPlan : Option Txt
deriving DecidableEq

/-- Schema Mapper of Zone 8 (`transform_raw_to_final`, lines 187-256),
per row: unit constants, `Well Name [2]` filled from `Well Name`
(line 236), text cleaning (line 239), rig name `astype(str)` (line
249), and the date pair (lines 242-246). -/
def mapRow (d : ℤ) (r : RawRow8) : Row :=
  { flag := .str "INC".toList
    region := .str "Region 3".toList
    zone := .str "Zone 8".toList
    aph := .str "PHM".toList
    rigName := .str (astypeStr r.namaRig)
    wellName := optCell r.namaSumur
    wellName2 := optCell r.namaSumur
    wellType := .str "Development".toList
    location := .str "Offshore".toList
    spudDate := .null
    releaseDate := .null
    status := .null
    statusCode1 := .null
    statusCode2 := .null
    summaryReport := optCell (cleanTextFieldCell r.summaryReport)
    currentStatus := optCell (cleanTextFieldCell r.currentStatus)
    nextPlan := optCell (cleanTextFieldCell r.nextPlan)
    reportDate := .date d
    operationDate := .date (d - 1) }

/-- Pure core of `transform_raw_to_final` (lines 187-265): map every
raw row, then sort by lowercase rig name (lines 258-265). -/
def transform_raw_to_final (d : ℤ) (rows : List RawRow8) : List Row :=
  sortByLe rigLowerLe (rows.map (mapRow d))

end Z8

/-- `re.sub(r'^[Rr]ig\s*', '', val).strip()`: strip one leading `Rig`
token (first letter case-insensitive) and following whitespace
(`src/Zone 9/app.py` line 135, `src/Zone 10/app.py` line 214). -/
def stripRigToken (val : Txt) : Txt :=
  let sub :=
    match val with
    | c :: 'i' :: 'g' :: rest => if c = 'R' || c = 'r' then rest.dropWhile pyIsSpace else val
    | _ => val
  stripWs sub

/-! ### Zone 10: parser and final transform (`src/Zone 10/app.py`). -/

namespace Z10

/-- One parsed record of `parse_txt_file` (the dict created at lines
66-75; the unused `Hari ke`-style fields are never set by the loop). -/
structure Rec10 where
  no : ℤ
  namaSumur : Txt
  namaRig : Option Txt := none
  afe : Option ℚ := none
  realisasi : Option ℚ := none
  summaryReport : Option Txt := none
  morningStatus : Option Txt := none
  nextPlan : Option Txt := none
deriving DecidableEq

/-- Line processing (line 51): `raw.strip().replace("*", "")`. -/
def procLine (raw : Txt) : Txt := removeChar '*' (stripWs raw)

/-- Boundary `re.match(r'^(\d+)\.\s*(.+)$', line)` (line 57): digits,
a dot, then at least one further character; yields the number and the
stripped remainder (`m.group(2).strip()`). -/
def matchNumDotRest (s : Txt) : Option (ℤ × Txt) :=
  let ds := s.takeWhile Char.isDigit
  if ds = [] then none
  else
    match s.drop ds.length with
    | '.' :: rest => if rest ≠ [] then some ((natOfDigits ds : ℤ), stripWs rest) else none
    | _ => none

/-- Stop test `re.match(r'^\d+\.\s+', text)`: digits, a dot, then at
least one whitespace character. -/
def isNumDotWs (s : Txt) : Bool :=
  match s.takeWhile Char.isDigit, s.drop (s.takeWhile Char.isDigit).length with
  | _ :: _, '.' :: c :: _ => pyIsSpace c
  | _, _ => false

/-- `known_fields` of `is_field_header` (lines 88-93). -/
def knownFields : List Txt :=
  (["nama sumur", "well name", "nama rig", "rig name",
    "hari ke", "est. tgl selesai", "kedalaman", "progres",
    "afe", "realisasi biaya", "casing setting depth",
    "plan - actual", "penambahan", "dsr"] : List String).map String.toList

/-- One alternative of `is_field_header`: the lowered stripped text
matches `^{field}\s*:\s*`. -/
def fieldColon (f tl : Txt) : Bool :=
  f.isPrefixOf tl && (((tl.drop f.length).dropWhile pyIsSpace).head? == some ':')

/-- `is_field_header` (lines 85-103): a known field label followed by a
colon, or a new numbered well entry. -/
def is_field_header (text : Txt) : Bool :=
  knownFields.any (fun f => fieldColon f (pyLower (stripWs text))) || isNumDotWs text

/-- Section-body capture loop (lines 117-133 and the two copies):
skip blank lines, stop at a numbered entry, a line containing one of
`stopKws`, or a field header; otherwise collect
`next_line.lstrip('=').strip()` when non-empty.  Returns the collected
parts and the unconsumed remainder (the initial dedicated blank-line
skip of lines 113-114 is subsumed by the loop's own blank-line case). -/
def captureBody (stopKws : List Txt) : List Txt → List Txt × List Txt
  | [] => ([], [])
  | raw :: ls =>
    let nl := procLine raw
    if nl = [] then captureBody stopKws ls
    else if isNumDotWs nl || stopKws.any (fun k => containsSub (pyLower nl) k)
        || is_field_header nl then
      ([], raw :: ls)
    else
      let cleaned := stripWs (nl.dropWhile (· = '='))
      let r := captureBody stopKws ls
      if cleaned = [] then r else (cleaned :: r.1, r.2)

theorem captureBody_rest_length (stopKws : List Txt) (ls : List Txt) :
    (captureBody stopKws ls).2.length ≤ ls.length := by
  induction ls with
  | nil => simp [captureBody]
  | cons raw ls ih =>
    simp only [captureBody]
    by_cases h1 : procLine raw = []
    · simp only [if_pos h1]
      exact le_trans ih (by simp)
    · simp only [if_neg h1]
      by_cases h2 : (isNumDotWs (procLine raw) ||
          stopKws.any (fun k => containsSub (pyLower (procLine raw)) k) ||
          is_field_header (procLine raw)) = true
      · simp [h2]
      · simp only [h2, if_false, Bool.false_eq_true]
        by_cases h3 : stripWs ((procLine raw).dropWhile (· = '=')) = []
        · simp only [if_pos h3]
          exact le_trans ih (by simp)
        · simp only [if_neg h3]
          exact le_trans ih (by simp)

/-- Key-value match `re.match(r'^([^:]+)\s*:\s*(.+)$', line)` (line
203): a first colon with at least one character on each side; both
parts stripped. -/
def matchKv (s : Txt) : Option (Txt × Txt) :=
  match splitAtFirst ':' s with
  | none => none
  | some (before, after) =>
    if before = [] ∨ after = [] then none else some (stripWs before, stripWs after)

/-- Update of the current record by one key-value line (lines 205-234). -/
def applyKv (c : Rec10) (key val : Txt) : Rec10 :=
  let kl := pyLower key
  if kl = "nama sumur".toList ∨ kl = "well name".toList then { c with namaSumur := val }
  else if kl = "nama rig".toList ∨ kl = "rig name".toList then
    { c with namaRig := some (stripRigToken val) }
  else if containsSub kl "afe".toList then { c with afe := parseAfeVal val }
  else if containsSub kl "realisasi".toList then { c with realisasi := parseRealisasiVal val }
  else c

/-- Stop keywords of the Summary Report capture (lines 123-126). -/
def summaryStops : List Txt :=
  (["morning status", "next plan", "current status"] : List String).map String.toList

/-- Stop keywords of the Morning Status capture (lines 154-157). -/
def statusStops : List Txt :=
  (["summary report", "next plan", "24 hrs summary"] : List String).map String.toList

/-- Stop keywords of the Next Plan capture (lines 185-189). -/
def planStops : List Txt :=
  (["summary report", "morning status", "current status", "24 hrs summary"] : List String).map
    String.toList

/-- Worker of the main loop of `parse_txt_file` (lines 42-240),
structurally recursive on a fuel bound (one unit per consumed line;
the fuel-exhausted case is unreachable for fuel ≥ the number of
lines, since the section captures only consume lines ahead). -/
def parseLinesF : ℕ → List Txt → Option Rec10 → List Rec10 → List Rec10
  | _, [], cur, acc => acc ++ cur.toList
  | 0, _ :: _, _, acc => acc
  | f + 1, raw :: ls, cur, acc =>
    let line := procLine raw
    if line = [] then parseLinesF f ls cur acc
    else
      match matchNumDotRest line with
      | some (n, wname) =>
        parseLinesF f ls (some { no := n, namaSumur := wname }) (acc ++ cur.toList)
      | none =>
        match cur with
        | none => parseLinesF f ls none acc
        | some c =>
          let low := pyLower line
          if containsSub low "summary report".toList ∨ containsSub low "24 hrs summary".toList then
            let r := captureBody summaryStops ls
            let c' := if r.1 ≠ [] then { c with summaryReport := some (stripWs (joinSpace r.1)) }
                      else c
            parseLinesF f r.2 (some c') acc
          else if containsSub low "morning status".toList ∨
              containsSub low "current status".toList then
            let r := captureBody statusStops ls
            let c' := if r.1 ≠ [] then { c with morningStatus := some (stripWs (joinSpace r.1)) }
                      else c
            parseLinesF f r.2 (some c') acc
          else if containsSub low "next plan".toList ∨ "plan".toList.isPrefixOf low ∨
              containsSub low "plan ahead".toList then
            let r := captureBody planStops ls
            let c' := if r.1 ≠ [] then { c with nextPlan := some (stripWs (joinSpace r.1)) }
                      else c
            parseLinesF f r.2 (some c') acc
          else
            match matchKv line with
            | some (key, val) => parseLinesF f ls (some (applyKv c key val)) acc
            | none => parseLinesF f ls (some c) acc

/-- The main loop with the canonical fuel. -/
def parseLines (ls : List Txt) (cur : Option Rec10) (acc : List Rec10) : List Rec10 :=
  parseLinesF ls.length ls cur acc

/-- Pure core of `parse_txt_file` (lines 23-247). -/
def parse_txt_file (t : Txt) : List Rec10 :=
  parseLines (pySplitlines t) none []

/-- `ValueError("No well data found in the report file")` (line 322). -/
inductive RawErr
  | noWellData
deriving DecidableEq

/-- Pure core of `transform_txt_to_raw` (lines 289-340): parse, fail on
an empty frame. -/
def transform_txt_to_raw (t : Txt) : Except RawErr (List Rec10) :=
  let rs := parse_txt_file t
  if rs = [] then .error .noWellData else .ok rs

/-- One row of the Zone 10 `export-raw` sheet after the required-column
selection of `transform_raw_to_final` (lines 385-391). -/
structure RawRow10 where
  namaSumur : Option Txt
  namaRig : Option Txt
  summaryReport : Option Txt
  morningStatus : Option Txt
  nextPlan : Option Txt
deriving DecidableEq

/-- Schema Mapper of Zone 10 (`transform_raw_to_final`, lines 343-458):
constants, `Well Name [2]` copied from `Well Name` (line 416),
PDSI-conditional APH (line 420), text cleaning (line 423), dates. -/
def mapRow (d : ℤ) (r : RawRow10) : Row :=
  { flag := .str "INC".toList
    region := .str "Region 3".toList
    zone := .str "Zone 10".toList
    aph := if containsSub (pyLower (astypeStr r.namaRig)) "pdsi".toList
           then .str "PEP".toList else .str "PHKT".toList
    rigName := .str (astypeStr r.namaRig)
    wellName := optCell r.namaSumur
    wellName2 := optCell r.namaSumur
    wellType := .str "Development".toList
    location := .str "Onshore".toList
    spudDate := .null
    releaseDate := .null
    status := .null
    statusCode1 := .null
    statusCode2 := .null
    summaryReport := optCell (z10CleanTextFieldCell r.summaryReport)
    currentStatus := optCell (z10CleanTextFieldCell r.morningStatus)
    nextPlan := optCell (z10CleanTextFieldCell r.nextPlan)
    reportDate := .date d
    operationDate := .date (d - 1) }

/-- Pure core of `transform_raw_to_final`: map rows, sort by lowercase
rig name (lines 452-458). -/
def transform_raw_to_final (d : ℤ) (rows : List RawRow10) : List Row :=
  sortByLe rigLowerLe (rows.map (mapRow d))

end Z10

/-! ### Zone 9: final transform (`src/Zone 9/app.py`). -/

namespace Z9

/-- One row of the Zone 9 `export-raw` sheet after the column selection
of `transform_raw_to_final` (line 255). -/
structure RawRow9 where
  namaSumur : Option Txt
  namaSumur2 : Option Txt
  namaRig : Option Txt
  summaryReport : Option Txt
  currentStatus : Option Txt
  plan : Option Txt
deriving DecidableEq

/-- Schema Mapper of Zone 9 (`transform_raw_to_final`, lines 224-317):
constants, `Well Name [2]` filled from `Well Name` when null (line
282), PDSI-conditional APH (line 286), text cleaning (line 289), the
one-off rig-name spacing fix (line 308), dates. -/
def mapRow (d : ℤ) (r : RawRow9) : Row :=
  let rigStr := astypeStr r.namaRig
  { flag := .str "INC".toList
    region := .str "Region 3".toList
    zone := .str "Zone 9".toList
    aph := if containsSub (pyLower rigStr) "pdsi".toList
           then .str "PEP".toList else .str "PHSS".toList
    rigName := .str (if rigStr = "PDSI#21.2/OW 700-M".toList
                     then "PDSI #21.2/OW 700-M".toList else rigStr)
    wellName := optCell r.namaSumur
    wellName2 := match r.namaSumur2 with
      | some t => .str t
      | none => optCell r.namaSumur
    wellType := .str "Development".toList
    location := .str "Onshore".toList
    spudDate := .null
    releaseDate := .null
    status := .null
    statusCode1 := .null
    statusCode2 := .null
    summaryReport := optCell (cleanTextFieldCell r.summaryReport)
    currentStatus := optCell (cleanTextFieldCell r.currentStatus)
    nextPlan := optCell (cleanTextFieldCell r.plan)
    reportDate := .date d
    operationDate := .date (d - 1) }

/-- Pure core of `transform_raw_to_final`: map rows, sort by lowercase
rig name (lines 311-317). -/
def transform_raw_to_final (d : ℤ) (rows : List RawRow9) : List Row :=
  sortByLe rigLowerLe (rows.map (mapRow d))

end Z9

/-! ### Zone 7: final transform (`src/Zone 7/app.py`). -/

namespace Z7

/-- One row of the Zone 7 `export-raw` sheet, restricted to the raw
columns that survive the final reorder (`Field`, `Location Name`,
`Company Man`, `Days`, `Depth` are dropped at lines 344-345). -/
structure RawRow7 where
  wellName : Option Txt
  rigName : Option Txt
  summary : Option Txt
  currentStatus : Option Txt
  nextPlan : Option Txt
deriving DecidableEq

/-- Blank test `pd.isna(x) or str(x).strip() == ''` (lines 324-327). -/
def isBlankOpt (v : Option Txt) : Bool :=
  match v with
  | none => true
  | some t => stripWs t = []

/-- The Summary fill loop of `transform_raw_to_final` (lines 321-328):
a blank Summary is filled with Current Status when that is non-blank,
else with Next Plan when that is non-blank. -/
def fillSummary (r : RawRow7) : Option Txt :=
  if isBlankOpt r.summary then
    if !isBlankOpt r.currentStatus then r.currentStatus
    else if !isBlankOpt r.nextPlan then r.nextPlan
    else r.summary
  else r.summary

/-- Schema Mapper of Zone 7 (`transform_raw_to_final`, lines 274-351):
constants (lines 300-307), `Well Name_2` copied from `Well Name` (line
305), the Summary fill, Excel-safe text cleaning on non-null cells
(lines 330-334), dates (lines 310-312). -/
def mapRow (d : ℤ) (r : RawRow7) : Row :=
  { flag := .str "INC".toList
    region := .str "Region 2".toList
    zone := .str "Zone 7".toList
    aph := .str "PEP".toList
    rigName := optCell r.rigName
    wellName := optCell r.wellName
    wellName2 := optCell r.wellName
    wellType := .str "Development".toList
    location := .str "Onshore".toList
    spudDate := .null
    releaseDate := .null
    status := .null
    statusCode1 := .null
    statusCode2 := .null
    summaryReport := optCell ((fillSummary r).map clean_text_for_excel)
    currentStatus := optCell (r.currentStatus.map clean_text_for_excel)
    nextPlan := optCell (r.nextPlan.map clean_text_for_excel)
    reportDate := .date d
    operationDate := .date (d - 1) }

/-- Sort key of Zone 7 (lines 347-351): `Zone`, then `Rig Name`, then
`Well Name`, case-sensitive, nulls last. -/
def sortLe (r1 r2 : Row) : Bool :=
  keysLe [cellKey r1.zone, cellKey r1.rigName, cellKey r1.wellName]
    [cellKey r2.zone, cellKey r2.rigName, cellKey r2.wellName]

/-- Pure core of `transform_raw_to_final` (lines 274-351). -/
def transform_raw_to_final (d : ℤ) (rows : List RawRow7) : List Row :=
  sortByLe sortLe (rows.map (mapRow d))

end Z7

/-! ### Region 2: converter (`src/Region 2/app.py`). -/

namespace R2

/-- One row of the Region 2 input sheet after `COLUMN_MAPPING`
selection and renaming (lines 13-22, 64); the report date is the
`pd.to_datetime` day index of the row's `Report Date` cell (line 76). -/
structure RawRow2 where
  reportDate : ℤ
  region : Option Txt
  zone : Option Txt
  rigName : Option Txt
  wellName1 : Option Txt
  wellType : Option Txt
  summary : Option Txt
  nextPlan : Option Txt
deriving DecidableEq

/-- `Series.replace(a, b)` on one cell: exact full-value match. -/
def replaceExact (a b : Txt) (v : Option Txt) : Option Txt :=
  if v = some a then some b else v

/-- The `Zone` filter `df["Zone"].isin(["Zone_05", "Zone_06"])` (line 65). -/
def zoneKept (r : RawRow2) : Bool :=
  r.zone == some "Zone_05".toList || r.zone == some "Zone_06".toList

/-- Schema Mapper of Region 2 (`convert_daily_report`, lines 32-94):
value replacements (lines 67-71), zone-based APH (line 73),
`Well Name_2` copied from `Well Name_1` (line 74), per-row
`Operation Date = Report Date - 1 day` (line 77), rig-name correction
(line 79), constants and empty strings (lines 81-88). -/
def mapRow (r : RawRow2) : Row :=
  let zone' := replaceExact "Zone_06".toList "Zone 6".toList
    (replaceExact "Zone_05".toList "Zone 5".toList r.zone)
  { flag := .str "INC".toList
    region := optCell (replaceExact "Reg_02".toList "Region 2".toList r.region)
    zone := optCell zone'
    aph := if zone' = some "Zone 5".toList then .str "ONWJ".toList
           else if zone' = some "Zone 6".toList then .str "OSES".toList
           else .null
    rigName := optCell (replaceExact "PVD-I".toList "PVD-II".toList r.rigName)
    wellName := optCell r.wellName1
    wellName2 := optCell r.wellName1
    wellType := optCell (replaceExact "BOR DEV".toList "Development".toList
      (replaceExact "BOR EKS".toList "Exploration".toList r.wellType))
    location := .str "Offshore".toList
    spudDate := .str []
    releaseDate := .str []
    status := .str []
    statusCode1 := .str []
    statusCode2 := .str []
    summaryReport := optCell r.summary
    currentStatus := .str []
    nextPlan := optCell r.nextPlan
    reportDate := .date r.reportDate
    operationDate := .date (r.reportDate - 1) }

/-- Sort key (line 91): `Zone`, then `Rig Name`. -/
def sortLe (r1 r2 : Row) : Bool :=
  keysLe [cellKey r1.zone, cellKey r1.rigName] [cellKey r2.zone, cellKey r2.rigName]

/-- Pure core of `convert_daily_report` (lines 32-94). -/
def convert_daily_report (rows : List RawRow2) : List Row :=
  sortByLe sortLe ((rows.filter zoneKept).map mapRow)

end R2

/-! ### Region 1: converter (`src/Region 1/app.py`). -/

namespace R1

/-- `str(val).strip() if pd.notna(val) else ""` (lines 21, 41, 65, 79). -/
def optStr (v : Option Txt) : Txt :=
  match v with
  | some t => stripWs t
  | none => []

/-- Residual match of `\n?\(([^)]*)\)\s*\n?\s*\(([^)]*)\)\s*$` at a
suffix: an optional newline, a parenthesized group, whitespace, a
second parenthesized group, trailing whitespace. -/
def z23TwoParens (rest : Txt) : Option (Txt × Txt) :=
  let rest1 := match rest with
    | '\n' :: r => r
    | r => r
  match rest1 with
  | '(' :: r2 =>
    let g2 := r2.takeWhile (· ≠ ')')
    match r2.drop g2.length with
    | ')' :: r3 =>
      match r3.dropWhile pyIsSpace with
      | '(' :: r5 =>
        let g3 := r5.takeWhile (· ≠ ')')
        match r5.drop g3.length with
        | ')' :: r6 => if r6.all pyIsSpace then some (g2, g3) else none
        | _ => none
      | _ => none
    | _ => none
  | _ => none

/-- Residual match of `\n?\(([^)]*)\)\s*$` at a suffix. -/
def z23OneParen (rest : Txt) : Option Txt :=
  let rest1 := match rest with
    | '\n' :: r => r
    | r => r
  match rest1 with
  | '(' :: r2 =>
    let g2 := r2.takeWhile (· ≠ ')')
    match r2.drop g2.length with
    | ')' :: r3 => if r3.all pyIsSpace then some g2 else none
    | _ => none
  | _ => none

/-- Offset of the first `'\n'` (or the length when absent): the longest
prefix the greedy `[^\n]*` group can take. -/
def firstNlIdx (s : Txt) : ℕ := (s.takeWhile (· ≠ '\n')).length

/-- Greedy-with-backtracking search for
`^([^\n]*)\n?\(([^)]*)\)\s*\n?\s*\(([^)]*)\)\s*$`: try the group-1
split point from longest to shortest. -/
def z23Go (s : Txt) : ℕ → Option (Txt × Txt × Txt)
  | 0 => (z23TwoParens s).map (fun g => ([], g.1, g.2))
  | i + 1 =>
    match z23TwoParens (s.drop (i + 1)) with
    | some (g2, g3) => some (s.take (i + 1), g2, g3)
    | none => z23Go s i

/-- The same descent for `^([^\n]*)\n?\(([^)]*)\)\s*$`. -/
def z23GoOne (s : Txt) : ℕ → Option (Txt × Txt)
  | 0 => (z23OneParen s).map (fun g => ([], g))
  | i + 1 =>
    match z23OneParen (s.drop (i + 1)) with
    | some g2 => some (s.take (i + 1), g2)
    | none => z23GoOne s i

/-- `split_well_name_z23` (`src/Region 1/app.py`, lines 20-37): the
two-paren shape, the one-paren shape, or the whole string; empty first
and third parts inherit the second. -/
def split_well_name_z23 (v : Option Txt) : Txt × Txt × Txt :=
  let s := optStr v
  if s = [] then ([], [], [])
  else
    let raw : Txt × Txt × Txt :=
      match z23Go s (firstNlIdx s) with
      | some (g1, g2, g3) => (stripWs g1, stripWs g2, stripWs g3)
      | none =>
        match z23GoOne s (firstNlIdx s) with
        | some (g1, g2) => (stripWs g1, stripWs g2, [])
        | none => (s, [], [])
    let p1 := if raw.1 = [] ∧ raw.2.1 ≠ [] then raw.2.1 else raw.1
    let p3 := if raw.2.2 = [] ∧ raw.2.1 ≠ [] then raw.2.1 else raw.2.2
    (p1, raw.2.1, p3)

/-- Offset of the first position where one of `stops` begins (the
regex lookahead `(?=Stop1|Stop2|$)` boundary); the text length when
none occurs. -/
def stopOffset (stops : List Txt) : Txt → ℕ
  | [] => 0
  | x :: xs =>
    if stops.any (fun p => p.isPrefixOf (x :: xs)) then 0 else stopOffset stops xs + 1

/-- The time-and-colon part `\s*\d{1,2}:\d{2}\s*:\s*` after a
`Status Pagi` literal: returns the remainder after the final colon. -/
def statusTimePart (rest : Txt) : Option Txt :=
  let r1 := rest.dropWhile pyIsSpace
  let d1 := r1.takeWhile Char.isDigit
  if d1.length = 0 ∨ d1.length > 2 then none
  else
    match r1.drop d1.length with
    | ':' :: a :: b :: r3 =>
      if a.isDigit ∧ b.isDigit then
        match r3.dropWhile pyIsSpace with
        | ':' :: r4 => some r4
        | _ => none
      else none
    | _ => none

/-- Leftmost occurrence of `Status Pagi` whose following time-and-colon
part matches (the `re.search` of lines 52-54): remainder after it. -/
def findStatusZ23 : Txt → Option Txt
  | [] => none
  | x :: xs =>
    if "Status Pagi".toList.isPrefixOf (x :: xs) then
      match statusTimePart ((x :: xs).drop "Status Pagi".toList.length) with
      | some r => some r
      | none => findStatusZ23 xs
    else findStatusZ23 xs

/-- `split_summary_report_z23` (lines 40-61): slice the text into the
`Laporan:`, `Status Pagi hh:mm :` and `Rencana:` fragments. -/
def split_summary_report_z23 (v : Option Txt) : Txt × Txt × Txt :=
  let s0 := optStr v
  if s0 = [] then ([], [], [])
  else
    let s := replaceSubAll "_x000D_".toList "\n".toList s0
    let summary :=
      match findSub s "Laporan:".toList with
      | none => []
      | some p =>
        let tail := s.drop (p + "Laporan:".toList.length)
        let raw := stripWs (tail.take (stopOffset
          ["Status Pagi".toList, "Rencana:".toList] tail))
        if raw.head? = some '-' then stripWs (raw.drop 1) else raw
    let status :=
      match findStatusZ23 s with
      | none => []
      | some tail => stripWs (tail.take (stopOffset ["Rencana:".toList] tail))
    let plan :=
      match findSub s "Rencana:".toList with
      | none => []
      | some p => stripWs (s.drop (p + "Rencana:".toList.length))
    (summary, status, plan)

/-- Scan for the lazy match of `^(.+?)\s*\(([^)]*)\)\s*$` (the split
point is the leftmost `'('` at index ≥ 1 whose group closes with only
whitespace after it). -/
def z4ScanGo : Txt → ℕ → Option (ℕ × Txt)
  | [], _ => none
  | '(' :: r2, j =>
    let grp := r2.takeWhile (· ≠ ')')
    (match r2.drop grp.length with
     | ')' :: r3 => if r3.all pyIsSpace then some (j, grp) else z4ScanGo r2 (j + 1)
     | _ => z4ScanGo r2 (j + 1))
  | _ :: xs, j => z4ScanGo xs (j + 1)

/-- `split_well_name_z4` (lines 64-75): primary and parenthesized
alternate; the alternate inherits the primary when empty; otherwise the
whole string twice. -/
def split_well_name_z4 (v : Option Txt) : Txt × Txt :=
  let s := optStr v
  if s = [] then ([], [])
  else
    match s with
    | [] => ([], [])
    | _ :: xs =>
      match z4ScanGo xs 1 with
      | some (j, grp) =>
        let p1 := stripWs (s.take j)
        let p2 := stripWs grp
        (p1, if p2 = [] then p1 else p2)
      | none => (s, s)

/-- The optional-time variant
`Status Pagi(?:\s*\d{1,2}:\d{2})?\s*:\s*` of `split_summary_report_z4`. -/
def z4StatusPart (rest : Txt) : Option Txt :=
  match statusTimePart rest with
  | some r => some r
  | none =>
    match rest.dropWhile pyIsSpace with
    | ':' :: r2 => some r2
    | _ => none

/-- Leftmost `Status Pagi` with the optional-time part (lines 88-90). -/
def findStatusZ4 : Txt → Option Txt
  | [] => none
  | x :: xs =>
    if "Status Pagi".toList.isPrefixOf (x :: xs) then
      match z4StatusPart ((x :: xs).drop "Status Pagi".toList.length) with
      | some r => some r
      | none => findStatusZ4 xs
    else findStatusZ4 xs

/-- `split_summary_report_z4` (lines 78-97). -/
def split_summary_report_z4 (v : Option Txt) : Txt × Txt × Txt :=
  let s0 := optStr v
  if s0 = [] then ([], [], [])
  else
    let s := replaceSubAll "_x000D_".toList "\n".toList s0
    let summary :=
      match s with
      | [] => []
      | _ :: xs =>
        stripWs (s.take (1 + stopOffset ["Status Pagi".toList, "Plan:".toList] xs))
    let status :=
      match findStatusZ4 s with
      | none => []
      | some tail => stripWs (tail.take (stopOffset ["Plan:".toList] tail))
    let plan :=
      match findSub s "Plan:".toList with
      | none => []
      | some p => stripWs (s.drop (p + "Plan:".toList.length))
    (summary, status, plan)

/-- Worker of `collapsePdsiWs`, structurally recursive on a fuel bound
(one unit per consumed character; the fuel-exhausted case is
unreachable for fuel ≥ the text length). -/
def collapsePdsiWsF : ℕ → Txt → Txt
  | _, [] => []
  | 0, s => s
  | f + 1, x :: xs =>
    if ("PDSI #".toList.isPrefixOf (x :: xs) &&
        ((x :: xs).drop 6).head?.any pyIsSpace) = true then
      "PDSI #".toList ++ collapsePdsiWsF f (((x :: xs).drop 6).dropWhile pyIsSpace)
    else x :: collapsePdsiWsF f xs

/-- `re.sub(r'(PDSI #)\s+', r'\1', x)` (lines 276-277): collapse
whitespace after every `PDSI #` occurrence. -/
def collapsePdsiWs (s : Txt) : Txt := collapsePdsiWsF s.length s

/-- One row of the Region 1 input sheet, restricted to
`selected_columns` (lines 162-170). -/
structure RawRow1 where
  zona : Option Txt
  namaSumur : Option Txt
  rig : Option Txt
  jenisKegiatan : Option Txt
  kegiatan : Option Txt
deriving DecidableEq

/-- `Series.replace(a, b)` on one cell: exact full-value match. -/
def replaceExact (a b : Txt) (v : Option Txt) : Option Txt :=
  if v = some a then some b else v

/-- The `Zona` filter (lines 173-176). -/
def zonaKept (r : RawRow1) : Bool :=
  r.zona == some "Zona 1".toList || r.zona == some "Zona 2 & 3".toList ||
    r.zona == some "Zona 4".toList

/-- The `Zona` value replacement (lines 177-179). -/
def zoneOf (r : RawRow1) : Option Txt :=
  replaceExact "Zona 1".toList "Zone 1".toList
    (replaceExact "Zona 2 & 3".toList "Zone 2&3".toList
      (replaceExact "Zona 4".toList "Zone 4".toList r.zona))

/-- `df["APH"] = df["Zone"].map({...})` (line 221). -/
def aphOf (zone : Option Txt) : Cell :=
  if zone = some "Zone 1".toList ∨ zone = some "Zone 4".toList then .str "PEP".toList
  else if zone = some "Zone 2&3".toList then .str "PHR".toList
  else .null

/-- `Well Type` replacement (line 222). -/
def wellTypeOf (r : RawRow1) : Cell :=
  optCell (replaceExact "Eksplorasi".toList "Exploration".toList r.jenisKegiatan)

/-- Shared constants of every Region 1 row (lines 212-219): missing
reference columns are filled with the empty string, then `Flag`,
`Region` and `Location` are overwritten. -/
def baseRow (d : ℤ) (r : RawRow1) : Row :=
  { flag := .str "INC".toList
    region := .str "Region 1".toList
    zone := optCell (zoneOf r)
    aph := aphOf (zoneOf r)
    rigName := optCell r.rig
    wellName := optCell r.namaSumur
    wellName2 := .str []
    wellType := wellTypeOf r
    location := .str "Onshore".toList
    spudDate := .str []
    releaseDate := .str []
    status := .str []
    statusCode1 := .str []
    statusCode2 := .str []
    summaryReport := optCell r.kegiatan
    currentStatus := .str []
    nextPlan := .str []
    reportDate := .date d
    operationDate := .date (d - 1) }

/-- The case-insensitive split separator `(?i)Plan\s*:\s*` of the
Zone 1 summary split (lines 233-235): leftmost match position and
length. -/
def z1PlanSplitGo : Txt → ℕ → Option (ℕ × ℕ)
  | [], _ => none
  | x :: xs, i =>
    if "plan".toList.isPrefixOf (pyLower (x :: xs)) then
      let r1 := (x :: xs).drop 4
      let w1 := r1.takeWhile pyIsSpace
      match r1.drop w1.length with
      | ':' :: r2 => some (i, 4 + w1.length + 1 + (r2.takeWhile pyIsSpace).length)
      | _ => z1PlanSplitGo xs (i + 1)
    else z1PlanSplitGo xs (i + 1)

/-- `Series.str.split(r"(?i)Plan\s*:\s*", n=1, regex=True)` on one value. -/
def z1PlanSplit (s : Txt) : Option (Txt × Txt) :=
  (z1PlanSplitGo s 0).map (fun p => (s.take p.1, s.drop (p.1 + p.2)))

/-- The Zone 1 branch (lines 225-242): well name split on `'/'`,
summary split on `Plan :`, rig name with all `Rig` substrings removed. -/
def mapZ1 (d : ℤ) (r : RawRow1) : Row :=
  let wn : Cell × Cell :=
    match r.namaSumur with
    | none => (.null, .str [])
    | some s =>
      match splitAtFirst '/' s with
      | none => (.str (stripWs s), .str [])
      | some (a, b) => (.str (stripWs a), .str (stripWs b))
  let sp : Txt × Txt :=
    match r.kegiatan with
    | none => ([], [])
    | some s =>
      match z1PlanSplit s with
      | none => (stripWs s, [])
      | some (a, b) => (stripWs a, stripWs b)
  { baseRow d r with
    wellName := wn.1
    wellName2 := wn.2
    summaryReport := .str sp.1
    nextPlan := .str sp.2
    rigName := match r.rig with
      | none => .null
      | some s => .str (stripWs (replaceSubAll "Rig".toList [] s)) }

/-- The Zone 2&3 branch (lines 245-254). -/
def mapZ23 (d : ℤ) (r : RawRow1) : Row :=
  let w := split_well_name_z23 r.namaSumur
  let sp := split_summary_report_z23 r.kegiatan
  { baseRow d r with
    wellName := .str w.2.1
    wellName2 := .str w.2.2
    summaryReport := .str sp.1
    currentStatus := .str sp.2.1
    nextPlan := .str sp.2.2 }

/-- The Zone 4 rig-name pipeline (lines 265-280): remove `Rig`
substrings, strip, apply the alias table, collapse `PDSI #` spacing. -/
def z4RigName (v : Option Txt) : Cell :=
  match v with
  | none => .null
  | some s =>
    let s1 := stripWs (replaceSubAll "Rig".toList [] s)
    let s2 :=
      if s1 = "Airlangga #55".toList then "Airlangga-55".toList
      else if s1 = "PDSI ACS#21".toList then "ACS-21".toList
      else if s1 = "#36.1/Skytop 650M".toList then "PDSI #36.1/Skytop 650M".toList
      else s1
    .str (if "PDSI #".toList.isPrefixOf s2 then collapsePdsiWs s2 else s2)

/-- The Zone 4 branch (lines 257-286). -/
def mapZ4 (d : ℤ) (r : RawRow1) : Row :=
  let w := split_well_name_z4 (r.namaSumur.map (fun t => t.filter (· ≠ '⁠')))
  let sp := split_summary_report_z4 r.kegiatan
  { baseRow d r with
    wellName := .str w.1
    wellName2 := .str w.2
    summaryReport := .str sp.1
    currentStatus := .str sp.2.1
    nextPlan := .str sp.2.2
    rigName := z4RigName r.rig }

/-- `astype(str)` rendering of a cell of the `Next Plan` column (only
string or null cells occur there in Region 1). -/
def astypeStrCell (c : Cell) : Txt :=
  match c with
  | .str t => t
  | .null => "nan".toList
  | _ => []

/-- The final `Next Plan` normalization (line 297):
`astype(str).str.lstrip("-").str.strip()`. -/
def finalizeNextPlan (r : Row) : Row :=
  { r with nextPlan := .str (stripWs ((astypeStrCell r.nextPlan).dropWhile (· = '-'))) }

/-- Sort key of the Zone 2&3 and Zone 4 sub-frames (lines 249, 281):
`Rig Name`, nulls last. -/
def sortLe (r1 r2 : Row) : Bool :=
  keysLe [cellKey r1.rigName] [cellKey r2.rigName]

/-- Pure core of `convert_daily_report` (`src/Region 1/app.py`, lines
100-298): filter to the known zones, process the three zone groups,
concatenate `Zone 1 ++ Zone 2&3 ++ Zone 4`, normalize `Next Plan`. -/
def convert_daily_report (d : ℤ) (rows : List RawRow1) : List Row :=
  let kept := rows.filter zonaKept
  let z1 := (kept.filter (fun r => zoneOf r = some "Zone 1".toList)).map (mapZ1 d)
  let z23 := sortByLe sortLe
    ((kept.filter (fun r => zoneOf r = some "Zone 2&3".toList)).map (mapZ23 d))
  let z4 := sortByLe sortLe
    ((kept.filter (fun r => zoneOf r = some "Zone 4".toList)).map (mapZ4 d))
  (z1 ++ z23 ++ z4).map finalizeNextPlan

end R1

/-! ### Supporting lemmas. -/

/-- A row of a unit's sorted output comes from mapping one input row. -/
theorem mem_sortMap {α : Type} (le : Row → Row → Bool) (f : α → Row) (rows : List α)
    (r : Row) (h : r ∈ sortByLe le (rows.map f)) : ∃ a ∈ rows, r = f a := by
  rw [mem_sortByLe, List.mem_map] at h
  obtain ⟨a, ha, hfa⟩ := h
  exact ⟨a, ha, hfa.symm⟩

theorem splitAtFirst_eq_none (c : Char) (s : Txt) :
    splitAtFirst c s = none ↔ c ∉ s := by
  induction s with
  | nil => simp [splitAtFirst]
  | cons x xs ih =>
    by_cases hxc : x = c
    · subst hxc
      simp [splitAtFirst]
    · simp [splitAtFirst, hxc, Option.map_eq_none', ih, Ne.symm hxc]

/-- The part of every unit's date handling the claims rely on. -/
def opDateOk (r : Row) : Prop :=
  ∃ t : ℤ, r.reportDate = .date t ∧ r.operationDate = .date (t - 1)

theorem head_lstripWs_not_space (s : Txt) :
    ∀ c, (lstripWs s).head? = some c → pyIsSpace c = false := by
  induction s with
  | nil => intro c hc; cases hc
  | cons x xs ih =>
    intro c hc
    by_cases hx : pyIsSpace x
    · rw [lstripWs, List.dropWhile_cons, if_pos hx] at hc
      exact ih c hc
    · rw [lstripWs, List.dropWhile_cons, if_neg hx] at hc
      cases hc
      simpa using hx

theorem rstripWs_isPrefix (s : Txt) : rstripWs s <+: s := by
  have h := List.reverse_prefix.mpr (List.dropWhile_suffix (l := s.reverse) pyIsSpace)
  rw [List.reverse_reverse] at h
  exact h

theorem head_rstripWs (s : Txt) (h : rstripWs s ≠ []) :
    (rstripWs s).head? = s.head? := by
  obtain ⟨t, ht⟩ := rstripWs_isPrefix s
  cases hr : rstripWs s with
  | nil => exact absurd hr h
  | cons a as =>
    rw [← ht, hr]
    simp

theorem head_stripWs_not_space (s : Txt) :
    ∀ c, (stripWs s).head? = some c → pyIsSpace c = false := by
  intro c hc
  have hne : rstripWs (lstripWs s) ≠ [] := by
    intro hz
    rw [stripWs, hz] at hc
    cases hc
  rw [stripWs, head_rstripWs _ hne] at hc
  exact head_lstripWs_not_space s c hc

theorem lstripWs_of_head {s : Txt} {c : Char} (hc : s.head? = some c)
    (h : pyIsSpace c = false) : lstripWs s = s := by
  cases s with
  | nil => cases hc
  | cons x xs =>
    cases hc
    rw [lstripWs, List.dropWhile_cons, if_neg (by simp [h])]

theorem rstripWs_ne_nil {s : Txt} {c : Char} (hmem : c ∈ s)
    (h : pyIsSpace c = false) : rstripWs s ≠ [] := by
  intro hz
  rw [rstripWs, List.reverse_eq_nil_iff, List.dropWhile_eq_nil_iff] at hz
  exact absurd (hz c (by simpa using hmem)) (by simp [h])

/-- The Zone 7 first-line loop never returns a line whose stripped form
begins with `'-'`. -/
theorem cleanFirstLineF_strip_head (f : ℕ) :
    ∀ l : Txt, l.length < f → (stripWs (Z7.cleanFirstLineF f l)).head? ≠ some '-' := by
  induction f with
  | zero => intro l hl; omega
  | succ f ih =>
    intro l hl
    rw [Z7.cleanFirstLineF]
    by_cases hc : (stripWs l).head? = some '-'
    · rw [if_pos hc]
      apply ih
      have h1 : stripWs l ≠ [] := by
        intro hz
        rw [hz] at hc
        cases hc
      have h2 : 0 < (stripWs l).length := List.length_pos.mpr h1
      have h3 := Z7.length_stripWs_le ((stripWs l).drop 1)
      have h4 := Z7.length_stripWs_le l
      simp only [List.length_drop] at h3
      omega
    · rw [if_neg hc]
      exact hc

/-- The Zone 7 first-line loop preserves a non-whitespace head and never
returns a line starting with `'-'`. -/
theorem cleanFirstLineF_head (f : ℕ) :
    ∀ l : Txt, l.length < f → (∀ c, l.head? = some c → pyIsSpace c = false) →
      ∀ c, (Z7.cleanFirstLineF f l).head? = some c → c ≠ '-' := by
  induction f with
  | zero => intro l hl; omega
  | succ f ih =>
    intro l hl hhead c hc hdash
    rw [Z7.cleanFirstLineF] at hc
    by_cases hcond : (stripWs l).head? = some '-'
    · rw [if_pos hcond] at hc
      refine ih _ ?_ ?_ c hc hdash
      · have h1 : stripWs l ≠ [] := by
          intro hz
          rw [hz] at hcond
          cases hcond
        have h2 : 0 < (stripWs l).length := List.length_pos.mpr h1
        have h3 := Z7.length_stripWs_le ((stripWs l).drop 1)
        have h4 := Z7.length_stripWs_le l
        simp only [List.length_drop] at h3
        omega
      · exact head_stripWs_not_space _
    · rw [if_neg hcond] at hc
      subst hdash
      have hws : pyIsSpace '-' = false := hhead '-' hc
      have hl2 : lstripWs l = l := lstripWs_of_head hc hws
      have hne : rstripWs (lstripWs l) ≠ [] := by
        rw [hl2]
        exact rstripWs_ne_nil (by cases l with
          | nil => cases hc
          | cons x xs => cases hc; exact List.mem_cons_self _ _) hws
      apply hcond
      rw [stripWs, head_rstripWs _ hne, hl2, hc]

theorem splitOnChar_first (c : Char) (s : Txt) :
    ∃ t, splitOnChar c s = s.takeWhile (· ≠ c) :: t := by
  induction s with
  | nil => exact ⟨[], rfl⟩
  | cons x xs ih =>
    obtain ⟨t, ht⟩ := ih
    by_cases hx : x = c
    · subst hx
      refine ⟨splitOnChar x xs, ?_⟩
      rw [splitOnChar, ht]
      simp [List.takeWhile]
    · refine ⟨t, ?_⟩
      rw [splitOnChar, ht]
      simp [List.takeWhile, hx]

theorem takeWhile_head {p : Char → Bool} {s : Txt} {c : Char}
    (h : (s.takeWhile p).head? = some c) : s.head? = some c := by
  cases s with
  | nil => cases h
  | cons x xs =>
    rw [List.takeWhile_cons] at h
    by_cases hx : p x
    · rw [if_pos hx] at h
      cases h
      rfl
    · rw [if_neg hx] at h
      cases h

theorem joinNl_head (a : Txt) (rest : List Txt) {c : Char}
    (h : (joinNl (a :: rest)).head? = some c) :
    a.head? = some c ∨ c = '\n' := by
  cases rest with
  | nil => exact Or.inl h
  | cons b bs =>
    have hj : joinNl (a :: b :: bs) = a ++ '\n' :: joinNl (b :: bs) := rfl
    rw [hj] at h
    cases a with
    | nil =>
      cases h
      exact Or.inr rfl
    | cons x xs =>
      cases h
      exact Or.inl rfl

/-- `clean_text_for_excel` never returns a text starting with `'-'`. -/
theorem clean_text_for_excel_head (s : Txt) :
    ∀ c, (Z7.clean_text_for_excel s).head? = some c → c ≠ '-' := by
  intro c hc hdash
  subst hdash
  rw [Z7.clean_text_for_excel] at hc
  by_cases hs : s = []
  · rw [if_pos hs, hs] at hc
    cases hc
  · rw [if_neg hs] at hc
    obtain ⟨t, ht⟩ := splitOnChar_first '\n' (stripWs s)
    rw [ht] at hc
    rcases joinNl_head _ _ hc with h1 | h1
    · refine cleanFirstLineF_head _ _ (Nat.lt_succ_self _) ?_ '-' h1 rfl
      intro c0 hc0
      exact head_stripWs_not_space s c0 (takeWhile_head hc0)
    · cases h1

/-! ### The claims. -/

/-- C1 fails as stated: the Zone 7 and Region 5 final tables do not use
the canonical column names (`Well Name_2` instead of `Well Name [2]`,
`Summary` / `Current Operation` / `24 hrs look ahead` instead of
`Summary Report` / `Next Plan`), so the output columns are not named
identically across all units. -/
theorem c1_counterexample :
    z7ColumnOrder ≠ canonicalColumns ∧ r5ColumnOrder ≠ canonicalColumns ∧
      r2ColumnOrder ≠ canonicalColumns := by
  refine ⟨?_, ?_, ?_⟩ <;> decide

/-- C1 amended: every unit's final output table has exactly 19 columns
in one fixed order per unit; Zone 8, Zone 9, Zone 10 and Region 1 use
exactly the canonical names in canonical order, while Zone 7, Region 2
and Region 5 keep the canonical order but rename a few columns
(`Well Name_2` for `Well Name [2]`; Zone 7 `Summary` for
`Summary Report`; Region 2 `Well Name_1` for `Well Name`; Region 5
`Current Operation` / `24 hrs look ahead` for `Summary Report` /
`Next Plan`); every modelled row carries exactly these 19 cells. -/
theorem c1_amended :
    canonicalColumns.length = 19 ∧
    z7ColumnOrder.length = 19 ∧ z8ColsOrder.length = 19 ∧ z9ColsOrder.length = 19 ∧
    z10ColsOrder.length = 19 ∧ r1ReferenceColumns.length = 19 ∧
    r2ColumnOrder.length = 19 ∧ r5ColumnOrder.length = 19 ∧
    z8ColsOrder = canonicalColumns ∧ z9ColsOrder = canonicalColumns ∧
    z10ColsOrder = canonicalColumns ∧ r1ReferenceColumns = canonicalColumns ∧
    (z7ColumnOrder.zip canonicalColumns).filter (fun p => p.1 ≠ p.2) =
      [("Well Name_2", "Well Name [2]"), ("Summary", "Summary Report")] ∧
    (r2ColumnOrder.zip canonicalColumns).filter (fun p => p.1 ≠ p.2) =
      [("Well Name_1", "Well Name"), ("Well Name_2", "Well Name [2]")] ∧
    (r5ColumnOrder.zip canonicalColumns).filter (fun p => p.1 ≠ p.2) =
      [("Well Name_2", "Well Name [2]"), ("Current Operation", "Summary Report"),
       ("24 hrs look ahead", "Next Plan")] ∧
    ∀ r : Row, (rowCells r).length = 19 := by
  exact ⟨by decide, by decide, by decide, by decide, by decide, by decide, by decide,
    by decide, by decide, by decide, by decide, by decide, by decide, by decide, by decide,
    fun r => rfl⟩

/-- C2: in every modelled unit's final transform (Zone 7, Zone 8,
Zone 9, Zone 10, Region 1, Region 2), every output row's Operation Date
is exactly one day before its Report Date. -/
theorem c2_operation_date (d : ℤ) :
    (∀ rows, ∀ r ∈ Z7.transform_raw_to_final d rows, opDateOk r) ∧
    (∀ rows, ∀ r ∈ Z8.transform_raw_to_final d rows, opDateOk r) ∧
    (∀ rows, ∀ r ∈ Z9.transform_raw_to_final d rows, opDateOk r) ∧
    (∀ rows, ∀ r ∈ Z10.transform_raw_to_final d rows, opDateOk r) ∧
    (∀ rows, ∀ r ∈ R1.convert_daily_report d rows, opDateOk r) ∧
    (∀ rows, ∀ r ∈ R2.convert_daily_report rows, opDateOk r) := by
  refine ⟨?_, ?_, ?_, ?_, ?_, ?_⟩
  · intro rows r hr
    obtain ⟨a, _, rfl⟩ := mem_sortMap _ _ _ _ hr
    exact ⟨d, rfl, rfl⟩
  · intro rows r hr
    obtain ⟨a, _, rfl⟩ := mem_sortMap _ _ _ _ hr
    exact ⟨d, rfl, rfl⟩
  · intro rows r hr
    obtain ⟨a, _, rfl⟩ := mem_sortMap _ _ _ _ hr
    exact ⟨d, rfl, rfl⟩
  · intro rows r hr
    obtain ⟨a, _, rfl⟩ := mem_sortMap _ _ _ _ hr
    exact ⟨d, rfl, rfl⟩
  · intro rows r hr
    simp only [R1.convert_daily_report, List.mem_map, List.mem_append, mem_sortByLe] at hr
    obtain ⟨r', hmem, rfl⟩ := hr
    rcases hmem with (h | h) | h <;> obtain ⟨a, -, rfl⟩ := h <;> exact ⟨d, rfl, rfl⟩
  · intro rows r hr
    obtain ⟨a, _, rfl⟩ := mem_sortMap _ _ _ _ hr
    exact ⟨a.reportDate, rfl, rfl⟩

/-- C2 witness at a concrete Zone 9 input. -/
theorem c2_operation_date_witness :
    opDateOk (Z9.mapRow 10957 ⟨some "W-1".toList, none, some "Rig A".toList,
      none, none, none⟩) := by
  exact (c2_operation_date 10957).2.2.1
    [⟨some "W-1".toList, none, some "Rig A".toList, none, none, none⟩] _ (by decide)

/-- C3 fails as stated: in Region 1's Zone 1 branch, a record whose
source well-name cell `"PWD-12"` contains no `/`-separated alternate
yields `Well Name [2] = ""`, not the well name. -/
theorem c3_counterexample :
    (R1.convert_daily_report 0 [⟨some "Zona 1".toList, some "PWD-12".toList,
        some "Rig X".toList, none, none⟩]).map (fun r => (r.wellName, r.wellName2)) =
      [(Cell.str "PWD-12".toList, Cell.str [])] ∧
    Cell.str ([] : Txt) ≠ Cell.str "PWD-12".toList := by
  exact ⟨by decide, by decide⟩

/-- C3 amended: `Well Name [2]` equals `Well Name` when no alternate is
present in Zone 7, Zone 8, Zone 10 and Region 2 (always copied), and in
Zone 9 (filled when the parsed alternate is null); in Region 1's Zone 1
branch a well name without a `/` alternate instead gets an empty
`Well Name [2]`. -/
theorem c3_amended (d : ℤ) :
    (∀ r : Z7.RawRow7, (Z7.mapRow d r).wellName2 = (Z7.mapRow d r).wellName) ∧
    (∀ r : Z8.RawRow8, (Z8.mapRow d r).wellName2 = (Z8.mapRow d r).wellName) ∧
    (∀ r : Z9.RawRow9, r.namaSumur2 = none →
      (Z9.mapRow d r).wellName2 = (Z9.mapRow d r).wellName) ∧
    (∀ r : Z10.RawRow10, (Z10.mapRow d r).wellName2 = (Z10.mapRow d r).wellName) ∧
    (∀ r : R2.RawRow2, (R2.mapRow r).wellName2 = (R2.mapRow r).wellName) ∧
    (∀ r : R1.RawRow1, ∀ s, r.namaSumur = some s → '/' ∉ s →
      (R1.mapZ1 d r).wellName = Cell.str (stripWs s) ∧
      (R1.mapZ1 d r).wellName2 = Cell.str []) := by
  refine ⟨fun r => rfl, fun r => rfl, ?_, fun r => rfl, fun r => rfl, ?_⟩
  · intro r h
    simp [Z9.mapRow, h]
  · intro r s hs hmem
    have hsplit : splitAtFirst '/' s = none := (splitAtFirst_eq_none '/' s).mpr hmem
    constructor <;> simp [R1.mapZ1, hs, hsplit]

/-- C3 amended witness at concrete Zone 9 and Region 1 inputs. -/
theorem c3_amended_witness :
    (Z9.mapRow 0 ⟨some "W".toList, none, none, none, none, none⟩).wellName2 =
      (Z9.mapRow 0 ⟨some "W".toList, none, none, none, none, none⟩).wellName ∧
    (R1.mapZ1 0 ⟨some "Zona 1".toList, some "AB".toList, none, none, none⟩).wellName =
      Cell.str (stripWs "AB".toList) ∧
    (R1.mapZ1 0 ⟨some "Zona 1".toList, some "AB".toList, none, none, none⟩).wellName2 =
      Cell.str [] := by
  have h1 := (c3_amended 0).2.2.1 ⟨some "W".toList, none, none, none, none, none⟩ rfl
  have h2 := (c3_amended 0).2.2.2.2.2 ⟨some "Zona 1".toList, some "AB".toList, none, none, none⟩
    "AB".toList rfl (by decide)
  exact ⟨h1, h2.1, h2.2⟩

/-- C4 fails as stated: the Zone 8/9/10 regex strips only one leading
decoration run, so `"- - leak off test"` still starts with `'-'` after
cleaning, and Zone 7's cleaner strips only `'-'`, so a leading `':'`
survives unchanged. -/
theorem c4_counterexample :
    stripLeadDecor "- - leak off test".toList = "- leak off test".toList ∧
    "- leak off test".toList.head? = some '-' ∧
    Z7.clean_text_for_excel ":lubricate well".toList = ":lubricate well".toList ∧
    ":lubricate well".toList.head? = some ':' := by
  refine ⟨by decide, by decide, by decide, by decide⟩

/-- C4 amended: the Zone 8/9/10 cleaner guarantees the result does not
start with `-`, `:` or `=` whenever the stripped run (and the
whitespace after it) is not followed by another such character; the
Zone 7 cleaner guarantees only that the result never starts with `'-'`
(a leading `':'` or `'='` is kept). -/
theorem c4_amended :
    (∀ s : Txt,
      (∀ c, ((s.dropWhile isDecor).dropWhile pyIsSpace).head? = some c → isDecor c = false) →
      ∀ c, (stripLeadDecor s).head? = some c → isDecor c = false) ∧
    (∀ s : Txt, ∀ c, (Z7.clean_text_for_excel s).head? = some c → c ≠ '-') := by
  constructor
  · intro s h c hc
    cases s with
    | nil => cases hc
    | cons x xs =>
      have he : stripLeadDecor (x :: xs) =
          if isDecor x then ((x :: xs).dropWhile isDecor).dropWhile pyIsSpace
          else x :: xs := rfl
      by_cases hx : isDecor x = true
      · rw [he, if_pos hx] at hc
        exact h c hc
      · rw [he, if_neg hx] at hc
        cases hc
        simpa using hx
  · exact clean_text_for_excel_head

/-- C4 amended witness at concrete inputs. -/
theorem c4_amended_witness :
    (stripLeadDecor ":= ok".toList).head? = some 'o' ∧ isDecor 'o' = false ∧
    (Z7.clean_text_for_excel "--down".toList).head? = some 'd' ∧ 'd' ≠ '-' := by
  refine ⟨by decide, c4_amended.1 ":= ok".toList (by decide) 'o' (by decide),
    by decide, c4_amended.2 "--down".toList 'd' (by decide)⟩

/-- C5 fails as stated: Zone 8's AFE parser has no empty-remainder
guard, so the digitless value `"Rp ,-"` raises an uncaught `ValueError`
(`float("")`) that aborts the whole parse instead of yielding null. -/
theorem c5_counterexample :
    Z8.parse_txt_file "1. X-1\nAFE : Rp ,-".toList = Except.error Z8.PyErr.valueError := by
  decide

/-- C5 amended: the described algorithm (strip to digits and dots,
strip trailing dots, empty remainder yields null not zero and no error)
holds for the Zone 9 and Zone 10 AFE / Realisasi Biaya parsers, Zone 10
additionally degrading unparseable remainders to null; Zone 8's AFE
parser raises an uncaught `ValueError` on a digitless value. -/
theorem c5_amended :
    (∀ val : Txt, rstripDots (val.filter isDigitOrDot) = [] →
      Z9.parseAfeVal val = .ok none) ∧
    (∀ val : Txt, ∀ q, pyFloatOfStripped (rstripDots (val.filter isDigitOrDot)) = some q →
      Z9.parseAfeVal val = .ok (some q)) ∧
    (∀ val : Txt, rstripDots ((beforeParen val).filter isDigitOrDot) = [] →
      Z9.parseRealisasiVal val = .ok none) ∧
    (∀ val : Txt, rstripDots (val.filter isDigitOrDot) = [] →
      Z10.parseAfeVal val = none) ∧
    (∀ val : Txt, ∀ q, pyFloatOfStripped (rstripDots (val.filter isDigitOrDot)) = some q →
      Z10.parseAfeVal val = some q) ∧
    (∀ val : Txt, rstripDots ((beforeParen val).filter isDigitOrDot) = [] →
      Z10.parseRealisasiVal val = none) := by
  have hnil : pyFloatOfStripped [] = none := by decide
  refine ⟨?_, ?_, ?_, ?_, ?_, ?_⟩
  · intro val h
    simp [Z9.parseAfeVal, h]
  · intro val q h
    by_cases hn : rstripDots (val.filter isDigitOrDot) = []
    · rw [hn, hnil] at h
      cases h
    · simp [Z9.parseAfeVal, hn, h]
  · intro val h
    simp [Z9.parseRealisasiVal, h]
  · intro val h
    simp [Z10.parseAfeVal, h]
  · intro val q h
    by_cases hn : rstripDots (val.filter isDigitOrDot) = []
    · rw [hn, hnil] at h
      cases h
    · simp [Z10.parseAfeVal, hn, h]
  · intro val h
    simp [Z10.parseRealisasiVal, h]

/-- C5 amended witness at concrete inputs. -/
theorem c5_amended_witness :
    Z9.parseAfeVal "Rp ,-".toList = .ok none ∧
    Z9.parseAfeVal "USD 12.5 (est)".toList = .ok (some (25 / 2 : ℚ)) ∧
    Z10.parseAfeVal "Rp ,-".toList = none ∧
    Z9.parseRealisasiVal "Rp - (none)".toList = .ok none ∧
    Z10.parseRealisasiVal "Rp - (none)".toList = none := by
  refine ⟨c5_amended.1 _ (by decide),
    (c5_amended.2.1 _ (25 / 2 : ℚ) (by
      have hval : rstripDots (List.filter isDigitOrDot "USD 12.5 (est)".toList) =
          "12.5".toList := by decide
      rw [hval]
      have hsplit : splitOnChar '.' "12.5".toList = [['1', '2'], ['5']] := by decide
      rw [pyFloatOfStripped, hsplit]
      show (if _ ∧ _ then _ else none) = some (25 / 2 : ℚ)
      rw [if_pos (by decide)]
      simp only [natOfDigits, List.foldl]
      norm_num [show '1'.toNat = 49 from rfl, show '2'.toNat = 50 from rfl,
        show '5'.toNat = 53 from rfl])),
    c5_amended.2.2.2.1 _ (by decide),
    c5_amended.2.2.1 _ (by decide),
    c5_amended.2.2.2.2.2 _ (by decide)⟩

/-- The Zone 8 loop emits nothing when no line matches the numbered
boundary. -/
theorem z8_parse_noBoundary :
    ∀ (ls : List Txt) (f : ℕ), ls.length ≤ f →
      (∀ l ∈ ls, Z8.matchNumDot (stripWs l) = none) →
      ∀ acc, Z8.parseLinesF f ls none acc = .ok acc := by
  intro ls
  induction ls with
  | nil =>
    intro f _ _ acc
    cases f with
    | zero =>
      show Except.ok (acc ++ ([] : List Z8.Rec8)) = Except.ok acc
      rw [List.append_nil]
    | succ g =>
      show Except.ok (acc ++ ([] : List Z8.Rec8)) = Except.ok acc
      rw [List.append_nil]
  | cons l ls ih =>
    intro f hf h acc
    cases f with
    | zero => simp at hf
    | succ g =>
      have hl : Z8.matchNumDot (stripWs l) = none := h l (List.mem_cons_self _ _)
      have hstep : Z8.parseLinesF (g + 1) (l :: ls) none acc =
          Z8.parseLinesF g ls none acc := by
        show (match Z8.matchNumDot (stripWs l) with
              | some n => Z8.parseLinesF g ls (some { no := n })
                  (acc ++ (none : Option Z8.Rec8).toList)
              | none => Z8.parseLinesF g ls none acc) =
            Z8.parseLinesF g ls none acc
        rw [hl]
      rw [hstep]
      exact ih g (by simpa using hf) (fun x hx => h x (List.mem_cons_of_mem _ hx)) acc

/-- The Zone 10 loop emits nothing when no line matches the numbered
boundary. -/
theorem z10_parse_noBoundary :
    ∀ (ls : List Txt) (f : ℕ), ls.length ≤ f →
      (∀ l ∈ ls, Z10.matchNumDotRest (Z10.procLine l) = none) →
      ∀ acc, Z10.parseLinesF f ls none acc = acc := by
  intro ls
  induction ls with
  | nil =>
    intro f _ _ acc
    cases f with
    | zero =>
      show acc ++ ([] : List Z10.Rec10) = acc
      rw [List.append_nil]
    | succ g =>
      show acc ++ ([] : List Z10.Rec10) = acc
      rw [List.append_nil]
  | cons l ls ih =>
    intro f hf h acc
    cases f with
    | zero => simp at hf
    | succ g =>
      have hl : Z10.matchNumDotRest (Z10.procLine l) = none := h l (List.mem_cons_self _ _)
      have hrec := ih g (by simpa using hf) (fun x hx => h x (List.mem_cons_of_mem _ hx)) acc
      have hstep : Z10.parseLinesF (g + 1) (l :: ls) none acc =
          (if Z10.procLine l = [] then Z10.parseLinesF g ls none acc
           else
             match Z10.matchNumDotRest (Z10.procLine l) with
             | some (n, wname) => Z10.parseLinesF g ls (some { no := n, namaSumur := wname })
                 (acc ++ (none : Option Z10.Rec10).toList)
             | none => Z10.parseLinesF g ls none acc) := rfl
      rw [hstep, hl]
      by_cases hb : Z10.procLine l = []
      · rw [if_pos hb]
        exact hrec
      · rw [if_neg hb]
        exact hrec

/-- C6: in Zone 8 and Zone 10, a document in which no line matches the
numbered record boundary makes `transform_txt_to_raw` fail with the
"No well data found in the report file" error instead of producing an
empty table.  (Zone 7's `transform_txt_to_raw`, lines 244-245, guards
identically; its segmenter is not embedded here.) -/
theorem c6_no_well_data :
    (∀ t : Txt, (∀ l ∈ Z8.prepLines (Z8.truncAtKw t), Z8.matchNumDot (stripWs l) = none) →
      Z8.transform_txt_to_raw t = .error .noWellData) ∧
    (∀ t : Txt, (∀ l ∈ pySplitlines t, Z10.matchNumDotRest (Z10.procLine l) = none) →
      Z10.transform_txt_to_raw t = .error .noWellData) := by
  constructor
  · intro t h
    have hp : Z8.parse_txt_file t = .ok [] :=
      z8_parse_noBoundary _ _ le_rfl h []
    simp [Z8.transform_txt_to_raw, hp]
  · intro t h
    have hp : Z10.parse_txt_file t = [] :=
      z10_parse_noBoundary _ _ le_rfl h []
    simp [Z10.transform_txt_to_raw, hp]

/-- C6 witness at a concrete boundary-free document. -/
theorem c6_no_well_data_witness :
    Z8.transform_txt_to_raw "Laporan pagi\nno numbered wells today".toList =
      .error .noWellData ∧
    Z10.transform_txt_to_raw "Laporan pagi\nno numbered wells today".toList =
      .error .noWellData := by
  exact ⟨c6_no_well_data.1 _ (by decide), c6_no_well_data.2 _ (by decide)⟩

/-- C8: a Region 1 sheet row with `Zona = "Zona 2 & 3"` and the
composite well-name cell `"WELL-A\n(ALT-A)\n(ALT-B)"` yields an output
row with `Zone = "Zone 2&3"`, `Well Name = "ALT-A"` and
`Well Name [2] = "ALT-B"` (the unit-specific remapping selects the two
parenthesized names, not the leading name).  A Zone 1 companion row is
included so the scenario exercises the full converter. -/
theorem c8_zona23_remap :
    ((R1.convert_daily_report 0
      [⟨some "Zona 1".toList, some "AAA".toList, some "Rig A".toList, none, some "x".toList⟩,
       ⟨some "Zona 2 & 3".toList, some "WELL-A\n(ALT-A)\n(ALT-B)".toList, some "Rig B".toList,
        none, none⟩]).get? 1).map (fun r => (r.zone, r.wellName, r.wellName2)) =
      some (Cell.str "Zone 2&3".toList, Cell.str "ALT-A".toList, Cell.str "ALT-B".toList) ∧
    R1.split_well_name_z23 (some "WELL-A\n(ALT-A)\n(ALT-B)".toList) =
      ("WELL-A".toList, "ALT-A".toList, "ALT-B".toList) := by
  exact ⟨by decide, by decide⟩

theorem findSubFrom_spec (pat : Txt) :
    ∀ (s : Txt) (off p : ℕ),
      (∀ i, i < p → ¬ pat.isPrefixOf (s.drop i) = true) →
      pat.isPrefixOf (s.drop p) = true →
      findSubFrom pat s off = some (off + p) := by
  intro s
  induction s with
  | nil =>
    intro off p hlt hp
    cases p with
    | zero =>
      have hpe : pat = [] := by simpa using hp
      rw [findSubFrom, if_pos hpe]
      simp
    | succ p' =>
      exact absurd (by simpa using hp) (by simpa using hlt 0 (Nat.succ_pos _))
  | cons x xs ih =>
    intro off p hlt hp
    cases p with
    | zero =>
      rw [findSubFrom, if_pos (show pat.isPrefixOf (x :: xs) = true by simpa using hp)]
      simp
    | succ p' =>
      rw [findSubFrom, if_neg (by simpa using hlt 0 (Nat.succ_pos _))]
      have hr := ih (off + 1) p' (fun i hi => by simpa using hlt (i + 1) (by omega))
        (by simpa using hp)
      rw [hr]
      congr 1
      omega

/-- C9: the Zone 8 parser truncates at the first case-insensitive
occurrence of `WELL INTERVENTION` before any segmentation: for a
document `s ++ keyword ++ t` in which the keyword does not occur
earlier, the parse result is exactly that of the right-stripped prefix
`s`, so no well entry at or after the keyword is ever emitted. -/
theorem c9_truncation (s t : Txt)
    (h : ∀ i, i < s.length →
      ¬ Z8.kw.isPrefixOf ((pyUpper (s ++ Z8.kw ++ t)).drop i) = true) :
    Z8.parse_txt_file (s ++ Z8.kw ++ t) =
      Z8.parseLines (Z8.prepLines (rstripWs s)) none [] := by
  have hkw : pyUpper Z8.kw = Z8.kw := by decide
  have hsplit : pyUpper (s ++ Z8.kw ++ t) = pyUpper s ++ (Z8.kw ++ pyUpper t) := by
    simp only [pyUpper, List.map_append, List.append_assoc]
    rw [show List.map pyUpperC Z8.kw = Z8.kw from hkw]
  have hdrop : (pyUpper (s ++ Z8.kw ++ t)).drop s.length = Z8.kw ++ pyUpper t := by
    rw [hsplit]
    exact List.drop_left' (by simp [pyUpper])
  have hpfx : Z8.kw.isPrefixOf ((pyUpper (s ++ Z8.kw ++ t)).drop s.length) = true := by
    rw [hdrop, List.isPrefixOf_iff_prefix]
    exact List.prefix_append _ _
  have hfind : findSub (pyUpper (s ++ Z8.kw ++ t)) Z8.kw = some s.length := by
    have hs := findSubFrom_spec Z8.kw (pyUpper (s ++ Z8.kw ++ t)) 0 s.length h hpfx
    simpa [findSub] using hs
  have htake : (s ++ Z8.kw ++ t).take s.length = s := by
    rw [List.append_assoc]
    exact List.take_left _ _
  have htrunc : Z8.truncAtKw (s ++ Z8.kw ++ t) = rstripWs s := by
    rw [Z8.truncAtKw, hfind]
    show rstripWs ((s ++ Z8.kw ++ t).take s.length) = rstripWs s
    rw [htake]
  rw [Z8.parse_txt_file, htrunc]

/-- C9 witness: a concrete document whose second well entry sits after
the keyword; only the first entry is parsed. -/
theorem c9_truncation_witness :
    Z8.parse_txt_file ("1. A\nNama Sumur : A-1\n".toList ++ Z8.kw ++
        "\n2. B\nNama Sumur : B-2".toList) =
      Z8.parseLines (Z8.prepLines (rstripWs "1. A\nNama Sumur : A-1\n".toList)) none [] ∧
    Z8.parseLines (Z8.prepLines (rstripWs "1. A\nNama Sumur : A-1\n".toList)) none [] =
      .ok [{ no := 1, namaSumur := some "A-1".toList }] := by
  refine ⟨c9_truncation _ _ (by decide), by decide⟩

/-- C10: in the Zone 7 final transform, a null-or-blank Summary is
filled with Current Status when that is non-blank, else with Next Plan
when that is non-blank, else left unchanged; a non-blank Summary is
left unchanged; and the mapped row's Summary column is exactly the
filled value (after the Excel-safety cleaning). -/
theorem c10_summary_fill (d : ℤ) (r : Z7.RawRow7) :
    (Z7.isBlankOpt r.summary = true →
      (Z7.isBlankOpt r.currentStatus = false → Z7.fillSummary r = r.currentStatus) ∧
      (Z7.isBlankOpt r.currentStatus = true → Z7.isBlankOpt r.nextPlan = false →
        Z7.fillSummary r = r.nextPlan) ∧
      (Z7.isBlankOpt r.currentStatus = true → Z7.isBlankOpt r.nextPlan = true →
        Z7.fillSummary r = r.summary)) ∧
    (Z7.isBlankOpt r.summary = false → Z7.fillSummary r = r.summary) ∧
    (Z7.mapRow d r).summaryReport = optCell ((Z7.fillSummary r).map Z7.clean_text_for_excel) := by
  refine ⟨?_, ?_, rfl⟩
  · intro h1
    refine ⟨?_, ?_, ?_⟩
    · intro h2
      simp [Z7.fillSummary, h1, h2]
    · intro h2 h3
      simp [Z7.fillSummary, h1, h2, h3]
    · intro h2 h3
      simp [Z7.fillSummary, h1, h2, h3]
  · intro h1
    simp [Z7.fillSummary, h1]

/-- C10 witness at a concrete raw row with a blank Summary. -/
theorem c10_summary_fill_witness :
    Z7.fillSummary ⟨none, none, some "  ".toList, some "Circulating".toList, none⟩ =
      some "Circulating".toList := by
  exact ((c10_summary_fill 0
    ⟨none, none, some "  ".toList, some "Circulating".toList, none⟩).1 (by decide)).1 (by decide)

end DDR
